import Mathlib

/-!
Verification of the pdf-compress-app endpoints.

Shallow embedding of the two HTTP handlers of the repository:
  * pages/api/compress-and-store.js  (event/webhook path plus a pass-through
    manual path)
  * pages/api/store.js               (manual store endpoint)

JS strings are modelled as lists of characters (one entry per UTF-16 code
unit; all inputs of interest are ASCII), byte buffers as lists of naturals,
absent/undefined fields as none, and the external collaborators (object
storage, relational store, compression worker) as explicit outcome values
passed into the handler.  Code that can throw is modelled with Except, the
surrounding try/catch of each handler turning an error into a 500 response.
-/

set_option maxRecDepth 20000

deriving instance DecidableEq for Except

abbrev Str := List Char
abbrev Bytes := List Nat

/-! ## JS string helpers -/

/-- Truthiness of an optional JS string field: undefined and the empty string
are falsy. -/
def strTruthy : Option Str → Bool
  | some s => !s.isEmpty
  | none => false

/-- JS `a || b` on an optional string field with a string default. -/
def orDefault (a : Option Str) (b : Str) : Str :=
  match a with
  | some s => if s.isEmpty then b else s
  | none => b

/-- JS `a || b` on two optional string fields; the result keeps the first
truthy value (a falsy second operand is returned as is). -/
def jsOr (a b : Option Str) : Option Str :=
  if strTruthy a then a else b

/-- JS `a || b || null` on two optional string fields: none when both are
falsy, otherwise the first truthy value. -/
def jsOrNull (a b : Option Str) : Option Str :=
  if strTruthy a then a else if strTruthy b then b else none

/-- Value of a hexadecimal digit. -/
def hexVal (c : Char) : Option Nat :=
  if '0' ≤ c ∧ c ≤ '9' then some (c.toNat - '0'.toNat)
  else if 'a' ≤ c ∧ c ≤ 'f' then some (c.toNat - 'a'.toNat + 10)
  else if 'A' ≤ c ∧ c ≤ 'F' then some (c.toNat - 'A'.toNat + 10)
  else none

/-- Model of JS decodeURIComponent: each %XY escape is replaced by the
character with code 16*X+Y, other characters pass through; none models the
URIError thrown on a malformed escape.  (Escapes are decoded byte-wise; the
multi-byte UTF-8 recombination performed by JS for codes ≥ 0x80 is not
needed for the ASCII inputs considered here.) -/
def percentDecode : Str → Option Str
  | [] => some []
  | c :: rest =>
    if c = '%' then
      match rest with
      | x :: y :: rest2 =>
        match hexVal x, hexVal y with
        | some hx, some hy => (percentDecode rest2).map (fun r => Char.ofNat (16 * hx + hy) :: r)
        | _, _ => none
      | _ => none
    else (percentDecode rest).map (fun r => c :: r)

/-- Model of JS s.split('/'): maximal '/'-free runs, keeping empty pieces;
the empty string splits to one empty piece. -/
def splitSlash : Str → List Str
  | [] => [[]]
  | c :: rest =>
    if c = '/' then [] :: splitSlash rest
    else
      match splitSlash rest with
      | [] => [[c]]
      | p :: ps => (c :: p) :: ps

/-- Model of JS parts.join('/'). -/
def joinSlash : List Str → Str
  | [] => []
  | [p] => p
  | p :: ps => p ++ '/' :: joinSlash ps

/-- Model of JS s.indexOf(needle): index of the first occurrence. -/
def indexOfSub (needle : Str) : Str → Option Nat
  | [] => if needle.isPrefixOf [] then some 0 else none
  | c :: rest =>
    if needle.isPrefixOf (c :: rest) then some 0
    else (indexOfSub needle rest).map (· + 1)

/-! ### Lemmas about the string helpers -/

theorem splitSlash_ne_nil (s : Str) : splitSlash s ≠ [] := by
  match s with
  | [] => simp [splitSlash]
  | c :: rest =>
    simp only [splitSlash]
    split
    · simp
    · match h : splitSlash rest with
      | [] => simp
      | p :: ps => simp

theorem splitSlash_append (a b : Str) (h : ∀ c ∈ a, c ≠ '/') :
    splitSlash (a ++ '/' :: b) = a :: splitSlash b := by
  induction a with
  | nil => simp [splitSlash]
  | cons c a ih =>
    have hc : c ≠ '/' := h c (by simp)
    have ha : ∀ c ∈ a, c ≠ '/' := fun x hx => h x (by simp [hx])
    simp only [List.cons_append, splitSlash, if_neg hc, List.append_eq]
    rw [ih ha]

theorem joinSlash_splitSlash (s : Str) : joinSlash (splitSlash s) = s := by
  induction s with
  | nil => simp [splitSlash, joinSlash]
  | cons c rest ih =>
    simp only [splitSlash]
    by_cases hc : c = '/'
    · subst hc
      simp only [if_pos rfl]
      match h : splitSlash rest with
      | [] => exact absurd h (splitSlash_ne_nil rest)
      | p :: ps =>
        simp only [joinSlash]
        rw [h] at ih
        simpa [joinSlash] using ih
    · simp only [if_neg hc]
      match h : splitSlash rest with
      | [] => exact absurd h (splitSlash_ne_nil rest)
      | p :: ps =>
        rw [h] at ih
        match ps with
        | [] => simpa [joinSlash] using ih
        | q :: qs => simpa [joinSlash] using ih

theorem percentDecode_append_slash :
    ∀ (a a' : Str), percentDecode a = some a' →
      ∀ b, percentDecode (a ++ '/' :: b) = (percentDecode b).map (fun b' => a' ++ '/' :: b') := by
  intro a
  induction a using percentDecode.induct with
  | case1 =>
    intro a' ha b
    simp only [percentDecode] at ha
    cases ha
    rw [percentDecode.eq_def]
    simp
  | case2 x y rest2 hx hy hhy hhx ih =>
    intro a' ha b
    simp only [percentDecode, ite_true, hhx, hhy] at ha
    cases hr : percentDecode rest2 with
    | none => rw [hr] at ha; simp at ha
    | some r =>
      rw [hr] at ha
      simp only [Option.map_some', Option.some.injEq] at ha
      subst ha
      rw [show ('%' :: x :: y :: rest2) ++ '/' :: b = '%' :: x :: y :: (rest2 ++ '/' :: b) from rfl]
      simp only [percentDecode, ite_true, hhx, hhy, ih r hr]
      cases percentDecode b <;> simp
  | case3 x y rest2 hbad =>
    intro a' ha b
    exfalso
    have hnone : percentDecode ('%' :: x :: y :: rest2) = none := by
      simp only [percentDecode, ite_true]
    rw [hnone] at ha
    exact Option.noConfusion ha
  | case4 rest hshort =>
    intro a' ha b
    exfalso
    have hnone : percentDecode ('%' :: rest) = none := by
      match rest, hshort with
      | [], _ => rfl
      | [x], _ => rfl
      | x :: y :: r, hs => exact absurd (rfl : x :: y :: r = x :: y :: r) (fun h => hs x y r h)
    rw [hnone] at ha
    exact Option.noConfusion ha
  | case5 c rest hc ih =>
    intro a' ha b
    rw [percentDecode.eq_def] at ha
    simp only [hc, ite_false] at ha
    cases hr : percentDecode rest with
    | none => rw [hr] at ha; simp at ha
    | some r =>
      rw [hr] at ha
      simp only [Option.map_some', Option.some.injEq] at ha
      subst ha
      rw [List.cons_append, percentDecode.eq_def]
      simp only [hc, ite_false, ih r hr]
      cases percentDecode b <;> simp

theorem percentDecode_joinSlash (segs decs : List Str)
    (h : List.Forall₂ (fun seg d => percentDecode seg = some d) segs decs) :
    percentDecode (joinSlash segs) = some (joinSlash decs) := by
  induction h with
  | nil => simp [joinSlash, percentDecode]
  | cons hseg htail ih =>
    rename_i seg d segs' decs'
    cases htail with
    | nil => simpa [joinSlash] using hseg
    | cons h2 h3 =>
      rename_i s₂ d₂ ss ds
      simp only [joinSlash]
      rw [percentDecode_append_slash seg d hseg]
      rw [show joinSlash (s₂ :: ss) = joinSlash (s₂ :: ss) from rfl] at ih
      rw [ih]
      simp [joinSlash]

/-! ## The bucket regex and URL scanning of compress-and-store.js -/

def objectMarker : Str := "/object/".toList

/-- One attempt, at a fixed position, of one literal alternative of the
deriveBucket regex: if the string starts with the literal, the capture is the
maximal nonempty run of non-'/' characters following it. -/
def matchCapture (p s : Str) : Option Str :=
  if p.isPrefixOf s then
    let cap := (s.drop p.length).takeWhile (fun c => c != '/')
    if cap.isEmpty then none else some cap
  else none

/-- Model of one attempt, at a fixed position, of the regex
/\/object\/(?:public|sign(?:ed)?)\/([^/]+)/ used by deriveBucket: the three
literal alternatives (public, signed, sign — the pattern also admits the bare
sign spelling) are mutually exclusive at any one position, and the capture
group [^/]+ is the maximal nonempty run of non-'/' characters after the
literal. -/
def matchObjectBucketAt (s : Str) : Option Str :=
  match matchCapture "/object/public/".toList s with
  | some cap => some cap
  | none =>
    match matchCapture "/object/signed/".toList s with
    | some cap => some cap
    | none => matchCapture "/object/sign/".toList s

/-- Model of JS url.match for the deriveBucket regex: the earliest matching
position wins; the result is the capture group. -/
def findObjectBucket : Str → Option Str
  | [] => none
  | c :: rest =>
    match matchObjectBucketAt (c :: rest) with
    | some cap => some cap
    | none => findObjectBucket rest

theorem takeWhile_append_stop (a b : Str) (h : ∀ c ∈ a, c ≠ '/') :
    (a ++ '/' :: b).takeWhile (fun c => c != '/') = a := by
  induction a with
  | nil => simp
  | cons c a ih =>
    have hc : c ≠ '/' := h c (by simp)
    have ha : ∀ x ∈ a, x ≠ '/' := fun x hx => h x (by simp [hx])
    simp [List.takeWhile_cons, hc, ih ha]

theorem matchCapture_eq_some (p a b : Str) (hne : a ≠ []) (ha : ∀ c ∈ a, c ≠ '/') :
    matchCapture p (p ++ (a ++ '/' :: b)) = some a := by
  have hpre : p.isPrefixOf (p ++ (a ++ '/' :: b)) = true :=
    List.isPrefixOf_iff_prefix.mpr (List.prefix_append p _)
  simp only [matchCapture, hpre, if_true, List.drop_left, takeWhile_append_stop a b ha]
  simp [hne]

theorem matchCapture_none_of_not_prefix (p s : Str) (h : p.isPrefixOf s = false) :
    matchCapture p s = none := by
  simp [matchCapture, h]

theorem matchCapture_isPrefixOfMatch (p s cap : Str) (h : matchCapture p s = some cap) :
    p <+: s := by
  unfold matchCapture at h
  split at h
  · next hp => exact List.isPrefixOf_iff_prefix.mp hp
  · exact Option.noConfusion h

theorem matchObjectBucketAt_public (a b : Str) (hne : a ≠ []) (ha : ∀ c ∈ a, c ≠ '/') :
    matchObjectBucketAt ("/object/public/".toList ++ (a ++ '/' :: b)) = some a := by
  have h1 := matchCapture_eq_some "/object/public/".toList a b hne ha
  simp only [matchObjectBucketAt, h1]

theorem matchObjectBucketAt_signed (a b : Str) (hne : a ≠ []) (ha : ∀ c ∈ a, c ≠ '/') :
    matchObjectBucketAt ("/object/signed/".toList ++ (a ++ '/' :: b)) = some a := by
  have h0 : ("/object/public/".toList).isPrefixOf ("/object/signed/".toList ++ (a ++ '/' :: b)) = false := rfl
  have h1 := matchCapture_eq_some "/object/signed/".toList a b hne ha
  simp only [matchObjectBucketAt, matchCapture_none_of_not_prefix _ _ h0, h1]

theorem marker_prefix_of_matchAt (s cap : Str) (h : matchObjectBucketAt s = some cap) :
    objectMarker <+: s := by
  unfold matchObjectBucketAt at h
  cases h1 : matchCapture "/object/public/".toList s with
  | some c =>
    exact List.IsPrefix.trans ⟨"public/".toList, rfl⟩ (matchCapture_isPrefixOfMatch _ _ _ h1)
  | none =>
    rw [h1] at h
    cases h2 : matchCapture "/object/signed/".toList s with
    | some c =>
      exact List.IsPrefix.trans ⟨"signed/".toList, rfl⟩ (matchCapture_isPrefixOfMatch _ _ _ h2)
    | none =>
      rw [h2] at h
      exact List.IsPrefix.trans ⟨"sign/".toList, rfl⟩ (matchCapture_isPrefixOfMatch _ _ _ h)

theorem findObjectBucket_append (pre s : Str)
    (h : ∀ i, i < pre.length → matchObjectBucketAt ((pre ++ s).drop i) = none) :
    findObjectBucket (pre ++ s) = findObjectBucket s := by
  induction pre with
  | nil => rfl
  | cons c pre ih =>
    have h0 := h 0 (by simp)
    simp only [List.drop_zero, List.cons_append] at h0
    simp only [List.cons_append, findObjectBucket, List.append_eq, h0]
    exact ih fun i hi => by
      have := h (i + 1) (by simp; omega)
      simpa using this

theorem indexOfSub_append (needle pre s : Str) (hne : needle ≠ [])
    (hpre : ∀ i, i < pre.length → needle.isPrefixOf ((pre ++ s).drop i) = false)
    (hs : needle.isPrefixOf s = true) :
    indexOfSub needle (pre ++ s) = some pre.length := by
  induction pre with
  | nil =>
    simp only [List.nil_append]
    cases s with
    | nil =>
      exfalso
      have : needle = [] := by
        cases needle with
        | nil => rfl
        | cons c t => simp [List.isPrefixOf] at hs
      exact hne this
    | cons c t => simp [indexOfSub, hs]
  | cons c pre ih =>
    have h0 := hpre 0 (by simp)
    simp only [List.drop_zero, List.cons_append] at h0
    simp only [List.cons_append, indexOfSub, List.append_eq, h0]
    rw [ih fun i hi => by
      have := hpre (i + 1) (by simp; omega)
      simpa using this]
    simp

/-! ## Webhook record payload and the locator resolver
(deriveBucket / deriveObjectName of compress-and-store.js) -/

/-- The inner webhook record object.  String-valued fields are none when
absent or not a string; the two size fields are some only when the JS value
is a number (record.metadata.size and record.size).  The payload may carry
further legacy-style fields (object_path, path, file_name); they are listed
here so that claims about them can be stated — the source resolver never
reads them. -/
structure Record where
  bucket_id : Option Str
  name : Option Str
  file_path : Option Str
  object_path : Option Str
  path : Option Str
  file_name : Option Str
  file_url : Option Str
  metadata_size : Option Int
  size : Option Int
deriving Repr, DecidableEq

/-- deriveBucket: record.bucket_id || DEFAULT_BUCKET, and if that is falsy
and file_url is a string, the regex capture percent-decoded.  The error case
models the URIError a malformed escape throws (caught by the handler's
try/catch). -/
def deriveBucket (defaultBucket : Str) (r : Record) : Except Unit Str :=
  let bucket := orDefault r.bucket_id defaultBucket
  if bucket.isEmpty then
    match r.file_url with
    | some u =>
      match findObjectBucket u with
      | some cap =>
        match percentDecode cap with
        | some d => .ok d
        | none => .error ()
      | none => .ok bucket
    | none => .ok bucket
  else .ok bucket

/-- The findIndex(p => decodeURIComponent(p) === bucket) step of
deriveObjectName; .error models the URIError thrown when a part scanned
before the bucket is found has a malformed escape. -/
def findDecodeIdxAux (bucket : Str) : List Str → Nat → Except Unit (Option Nat)
  | [], _ => .ok none
  | p :: ps, i =>
    match percentDecode p with
    | none => .error ()
    | some d => if d = bucket then .ok (some i) else findDecodeIdxAux bucket ps (i + 1)

def findDecodeIdx (parts : List Str) (bucket : Str) : Except Unit (Option Nat) :=
  findDecodeIdxAux bucket parts 0

/-- deriveObjectName: record.name || record.file_path || null, and if that is
null, file_url is a string and the bucket is truthy, the slice of the URL
from the first '/object/' occurrence is split on '/', the part decoding to
the bucket is located, and the percent-decode of the join of the remaining
parts is the name.  .ok none models a null name; .error a thrown URIError. -/
def deriveObjectName (r : Record) (bucket : Str) : Except Unit (Option Str) :=
  match jsOrNull r.name r.file_path with
  | some n => .ok (some n)
  | none =>
    match r.file_url with
    | some u =>
      if bucket.isEmpty then .ok none
      else
        match indexOfSub objectMarker u with
        | none => .ok none
        | some idx =>
          let parts := splitSlash (u.drop idx)
          match findDecodeIdx parts bucket with
          | .error e => .error e
          | .ok none => .ok none
          | .ok (some bi) =>
            if bi + 1 < parts.length then
              match percentDecode (joinSlash (parts.drop (bi + 1))) with
              | some nm => .ok (some nm)
              | none => .error ()
            else .ok none
    | none => .ok none

/-- The size hint of the webhook record: metadata.size when it is a number,
else record.size when it is a number, else null. -/
def jsSize (r : Record) : Option Int :=
  match r.metadata_size with
  | some s => some s
  | none => r.size

/-! ## Base64 input decoding (both handlers) -/

/-- 6-bit value of a base64 alphabet character. -/
def b64Val (c : Char) : Option Nat :=
  if 'A' ≤ c ∧ c ≤ 'Z' then some (c.toNat - 'A'.toNat)
  else if 'a' ≤ c ∧ c ≤ 'z' then some (c.toNat - 'a'.toNat + 26)
  else if '0' ≤ c ∧ c ≤ '9' then some (c.toNat - '0'.toNat + 52)
  else if c = '+' then some 62
  else if c = '/' then some 63
  else none

/-- Groups of four 6-bit values give three bytes; a trailing group of two or
three values gives one or two bytes. -/
def b64Groups : List Nat → Bytes
  | a :: b :: c :: d :: rest =>
    (a * 4 + b / 16) :: ((b % 16) * 16 + c / 4) :: ((c % 4) * 64 + d) :: b64Groups rest
  | [a, b] => [a * 4 + b / 16]
  | [a, b, c] => [a * 4 + b / 16, (b % 16) * 16 + c / 4]
  | _ => []

/-- Model of Node Buffer.from(s, 'base64'): characters outside the base64
alphabet (including '=' padding) are ignored, decoding never throws.  (The
try/catch around it in compress-and-store.js is dead: Buffer.from with a
base64 encoding does not throw on malformed text.) -/
def b64decode (s : Str) : Bytes :=
  b64Groups (s.filterMap b64Val)

/-- Positions, on the first line and after the data: scheme, where the
;base64, marker of a data URL starts. -/
def b64MarkerStarts (s : Str) : List Nat :=
  (List.range (s.length + 1)).filter fun i =>
    decide (5 ≤ i) && (";base64,".toList.isPrefixOf (s.drop i)) && !((s.take i).contains '\n')

/-- Model of s.replace with the anchored data-URL pattern of both handlers
(greedy dot matching everything but newlines up to a ;base64, marker): when
the string starts with data: and a marker occurs on the first line, drop
everything through the last such marker; otherwise the string is unchanged. -/
def stripDataUrl (s : Str) : Str :=
  if "data:".toList.isPrefixOf s then
    match (b64MarkerStarts s).getLast? with
    | some i => s.drop (i + 8)
    | none => s
  else s

/-! ## Shared HTTP plumbing -/

/-- Rounding of +(x).toFixed(3): to the nearest thousandth, halves away from
zero for the nonnegative values arising here.  The binary-double artifacts of
JS floats are abstracted; the claims evaluate it only where it is exact. -/
def round3 (q : ℚ) : ℚ := (Int.floor (q * 1000 + 1 / 2) : ℚ) / 1000

/-- Token the handlers extract from the Authorization header: the text after
a literal Bearer prefix, or the empty string. -/
def bearerToken (auth : Option Str) : Str :=
  let a := auth.getD []
  if "Bearer ".toList.isPrefixOf a then a.drop 7 else []

/-- isOriginAllowed of both files: a non-empty Origin is allowed when some
configured pattern equals it, or some pattern starts with *. and the origin
ends with the pattern minus its leading star. -/
def isOriginAllowed (allowed : List Str) (origin : Option Str) : Bool :=
  match origin with
  | none => false
  | some o =>
    if o.isEmpty then false
    else allowed.any fun pattern =>
      if pattern = o then true
      else if "*.".toList.isPrefixOf pattern then (pattern.drop 1).isSuffixOf o
      else false

inductive Method
  | post
  | options
  | other
deriving Repr, DecidableEq

/-- Configuration read from the environment at module load. -/
structure Config where
  /-- SUPABASE_BUCKET (store.js), or SUPABASE_BUCKET || DEFAULT_PDF_BUCKET
  (compress-and-store.js); empty when unset. -/
  defaultBucket : Str
  /-- WEBHOOK_SECRET; empty when unset. -/
  webhookSecret : Str
  /-- Whether the REQUIRED_ENVS of getAdminClientOrThrow are all present. -/
  envOk : Bool
deriving Repr, DecidableEq

/-! ## compress-and-store.js -/

/-- Request body of compress-and-store.js (fields of both modes). -/
structure CSBody where
  record : Option Record
  newRec : Option Record
  supabasePath : Option Str
  fileBase64 : Option Str
  writingUploadId : Option Str
deriving Repr, DecidableEq

structure CSReq where
  method : Method
  authorization : Option Str
  origin : Option Str
  body : CSBody
deriving Repr, DecidableEq

/-- Parsed JSON of a worker 2xx response (fields are copied verbatim into the
handler's response). -/
structure WorkerResult where
  original_bytes : Option Int
  compressed_bytes : Option Int
  ratioVal : Option ℚ
  overwrote : Option Bool
  quality : Option Str
deriving Repr, DecidableEq

/-- Outcomes of the external collaborators for one invocation. -/
structure Collab where
  /-- compressViaService: ok carries the parsed worker JSON; error models a
  non-ok HTTP status, a network fault or a timeout (all thrown). -/
  workerResult : Except Str WorkerResult
  /-- storage download (manual mode, supabasePath branch). -/
  downloadResult : Except Str Bytes
  /-- storage upload: some message when it reports an error. -/
  uploadResult : Option Str
  /-- Writing_Uploads update: some message when it reports an error. -/
  dbUpdateError : Option Str
  /-- Date.now() at key synthesis. -/
  now : Nat
deriving Repr

/-- Side effects performed on the collaborators during one invocation. -/
structure Effects where
  workerCalled : Bool := false
  downloadCalled : Bool := false
  /-- some (bucket, key, bytes, upsert flag) when a storage upload was issued. -/
  upload : Option (Str × Str × Bytes × Bool) := none
  dbUpdateAttempted : Bool := false
deriving Repr, DecidableEq

inductive CSResp
  | noContent
  | methodNotAllowed
  | unauthorized
  | missingLocator
  | webhookSkipped (size : Int) (bucket name : Str)
  | webhookDone (bucket name : Str) (w : WorkerResult)
  | manualMissingInput
  | downloadFailed (details : Str)
  | manualSkipped (size : Nat)
  | uploadFailed (details : Str)
  | manualDone (bucket key : Str) (originalSize compressedSize : Nat) (ratioVal : ℚ)
      (writingUploadUpdated : Bool)
  | internalError (status : Nat)
deriving Repr, DecidableEq

def CSResp.statusCode : CSResp → Nat
  | .noContent => 204
  | .methodNotAllowed => 405
  | .unauthorized => 401
  | .missingLocator => 400
  | .webhookSkipped _ _ _ => 200
  | .webhookDone _ _ _ => 200
  | .manualMissingInput => 400
  | .downloadFailed _ => 500
  | .manualSkipped _ => 200
  | .uploadFailed _ => 500
  | .manualDone _ _ _ _ _ _ => 200
  | .internalError s => s

/-- Whether the JSON body of the response carries ok: true. -/
def CSResp.okFlag : CSResp → Bool
  | .webhookSkipped _ _ _ => true
  | .webhookDone _ _ _ => true
  | .manualSkipped _ => true
  | .manualDone _ _ _ _ _ _ => true
  | _ => false

def MIN_BYTES : Nat := 200 * 1024

def extractRecordFromWebhook (b : CSBody) : Option Record :=
  match b.record with
  | some r => some r
  | none => b.newRec

/-- The synthesized manual-mode storage key compressed/(Date.now())-auto.pdf. -/
def manualKey (now : Nat) : Str :=
  "compressed/".toList ++ (Nat.repr now).toList ++ "-auto.pdf".toList

/-- Manual mode from the point where inputBuf is in hand: threshold gate,
pass-through compression, upload with upsert: true under a synthesized key,
then the best-effort Writing_Uploads link. -/
def manualAfterInput (cfg : Config) (col : Collab) (body : CSBody) (eff0 : Effects)
    (inputBuf : Bytes) : CSResp × Effects :=
  if inputBuf.length ≤ MIN_BYTES then (.manualSkipped inputBuf.length, eff0)
  else
    match col.uploadResult with
    | some msg =>
      (.uploadFailed msg,
        { eff0 with
            upload := some (cfg.defaultBucket, manualKey col.now, inputBuf, true) })
    | none =>
      if strTruthy body.writingUploadId then
        match col.dbUpdateError with
        | some _ =>
          (.manualDone cfg.defaultBucket (manualKey col.now) inputBuf.length inputBuf.length
              (round3 ((inputBuf.length : ℚ) / (inputBuf.length : ℚ))) false,
            { eff0 with
                upload := some (cfg.defaultBucket, manualKey col.now, inputBuf, true),
                dbUpdateAttempted := true })
        | none =>
          (.manualDone cfg.defaultBucket (manualKey col.now) inputBuf.length inputBuf.length
              (round3 ((inputBuf.length : ℚ) / (inputBuf.length : ℚ))) true,
            { eff0 with
                upload := some (cfg.defaultBucket, manualKey col.now, inputBuf, true),
                dbUpdateAttempted := true })
      else
        (.manualDone cfg.defaultBucket (manualKey col.now) inputBuf.length inputBuf.length
            (round3 ((inputBuf.length : ℚ) / (inputBuf.length : ℚ))) false,
          { eff0 with
              upload := some (cfg.defaultBucket, manualKey col.now, inputBuf, true) })

/-- Manual mode of compress-and-store.js: inputBuf comes from a storage
download when supabasePath is truthy, else from base64-decoding fileBase64
(after stripping a data-URL prefix). -/
def manualMode (cfg : Config) (col : Collab) (body : CSBody) : CSResp × Effects :=
  if !strTruthy body.supabasePath && !strTruthy body.fileBase64 then (.manualMissingInput, {})
  else if strTruthy body.supabasePath then
    match col.downloadResult with
    | .error msg => (.downloadFailed msg, { downloadCalled := true })
    | .ok buf => manualAfterInput cfg col body { downloadCalled := true } buf
  else
    manualAfterInput cfg col body {} (b64decode (stripDataUrl (body.fileBase64.getD [])))

/-- The decoded manual-mode input buffer, when one is obtained. -/
def manualInput (col : Collab) (body : CSBody) : Option Bytes :=
  if !strTruthy body.supabasePath && !strTruthy body.fileBase64 then none
  else if strTruthy body.supabasePath then
    match col.downloadResult with
    | .error _ => none
    | .ok buf => some buf
  else some (b64decode (stripDataUrl (body.fileBase64.getD [])))

/-- Webhook mode of compress-and-store.js: locator resolution, the 400 on a
missing locator, the 200 KB skip, then the worker call (a thrown worker
failure lands in the handler's catch as a 500). -/
def webhookMode (cfg : Config) (col : Collab) (record : Record) : CSResp × Effects :=
  match deriveBucket cfg.defaultBucket record with
  | .error _ => (.internalError 500, {})
  | .ok bucket =>
    match deriveObjectName record bucket with
    | .error _ => (.internalError 500, {})
    | .ok nameOpt =>
      if bucket.isEmpty || !strTruthy nameOpt then (.missingLocator, {})
      else
        match jsSize record with
        | some s =>
          if s ≤ (MIN_BYTES : Int) then (.webhookSkipped s bucket (nameOpt.getD []), {})
          else
            match col.workerResult with
            | .error _ => (.internalError 500, { workerCalled := true })
            | .ok w => (.webhookDone bucket (nameOpt.getD []) w, { workerCalled := true })
        | none =>
          match col.workerResult with
          | .error _ => (.internalError 500, { workerCalled := true })
          | .ok w => (.webhookDone bucket (nameOpt.getD []) w, { workerCalled := true })

/-- The handler of compress-and-store.js: CORS preflight, method check, env
check (getAdminClientOrThrow), webhook-envelope extraction, the bearer check
applied only with an envelope and a configured secret, then webhook or
manual mode. -/
def csHandler (cfg : Config) (col : Collab) (req : CSReq) : CSResp × Effects :=
  match req.method with
  | .options => (.noContent, {})
  | .other => (.methodNotAllowed, {})
  | .post =>
    if !cfg.envOk then (.internalError 500, {})
    else
      match extractRecordFromWebhook req.body with
      | some record =>
        if cfg.webhookSecret ≠ [] ∧ bearerToken req.authorization ≠ cfg.webhookSecret then
          (.unauthorized, {})
        else webhookMode cfg col record
      | none => manualMode cfg col req.body

/-! ## store.js (src/unnamed/part_000) -/

/-- Request body of store.js; upsert is some only when the JS value is a
boolean (typeof upsert === 'boolean').  Destructuring defaults (bucket,
contentType, cacheControl) apply only to an absent/undefined field, hence
Option.getD below rather than the truthiness fallback. -/
structure StoreBody where
  bucket : Option Str
  path : Option Str
  fileName : Option Str
  dataBase64 : Option Str
  fileBase64 : Option Str
  contentType : Option Str
  upsert : Option Bool
  cacheControl : Option Str
  writingUploadId : Option Str
deriving Repr, DecidableEq

structure StoreReq where
  method : Method
  authorization : Option Str
  origin : Option Str
  body : StoreBody
deriving Repr, DecidableEq

structure StoreCollab where
  /-- storage upload: some message when it reports an error. -/
  uploadError : Option Str
  /-- Writing_Uploads update: some message when it reports an error. -/
  dbError : Option Str
  /-- Date.now() at legacy key synthesis. -/
  now : Nat
deriving Repr, DecidableEq

structure StoreEffects where
  /-- some (bucket, key, bytes, upsert flag) when a storage upload was issued. -/
  upload : Option (Str × Str × Bytes × Bool) := none
  dbUpdateAttempted : Bool := false
deriving Repr, DecidableEq

inductive StoreResp
  | noContent
  | methodNotAllowed
  | unauthorized
  | missingData
  | missingPathAndFileName
  | uploadFailed (details : Str)
  | done (bucket path : Str) (bytesWritten : Nat) (upsert : Bool) (writingUploadUpdated : Bool)
  | internalError (status : Nat)
deriving Repr, DecidableEq

def StoreResp.statusCode : StoreResp → Nat
  | .noContent => 204
  | .methodNotAllowed => 405
  | .unauthorized => 401
  | .missingData => 400
  | .missingPathAndFileName => 400
  | .uploadFailed _ => 500
  | .done _ _ _ _ _ => 200
  | .internalError s => s

/-- Whether the JSON body of the response carries ok: true. -/
def StoreResp.okFlag : StoreResp → Bool
  | .done _ _ _ _ _ => true
  | _ => false

/-- The handler of store.js: CORS preflight, method check, the optional
bearer check on every POST, env check, body-shape handling (legacy and new
field names), upload with the upsert flag defaulting to false, then the
legacy best-effort Writing_Uploads link. -/
def storeHandler (cfg : Config) (col : StoreCollab) (req : StoreReq) : StoreResp × StoreEffects :=
  match req.method with
  | .options => (.noContent, {})
  | .other => (.methodNotAllowed, {})
  | .post =>
    if cfg.webhookSecret ≠ [] ∧ bearerToken req.authorization ≠ cfg.webhookSecret then
      (.unauthorized, {})
    else if !cfg.envOk then (.internalError 500, {})
    else
      let b := req.body
      let bucket := b.bucket.getD cfg.defaultBucket
      let b64 := jsOr b.dataBase64 b.fileBase64
      if !strTruthy b64 then (.missingData, {})
      else
        let bytes := b64decode (stripDataUrl (b64.getD []))
        let keyOpt : Option Str :=
          if strTruthy b.path then b.path
          else if strTruthy b.fileName then
            some ("compressed/".toList ++ (Nat.repr col.now).toList ++ '-' :: b.fileName.getD [])
          else none
        match keyOpt with
        | none => (.missingPathAndFileName, {})
        | some key =>
          let shouldUpsert := b.upsert.getD false
          let eff1 : StoreEffects := { upload := some (bucket, key, bytes, shouldUpsert) }
          match col.uploadError with
          | some msg => (.uploadFailed msg, eff1)
          | none =>
            let compSize := bytes.length
            if strTruthy b.writingUploadId then
              let eff2 := { eff1 with dbUpdateAttempted := true }
              match col.dbError with
              | some _ => (.done bucket key compSize shouldUpsert false, eff2)
              | none => (.done bucket key compSize shouldUpsert true, eff2)
            else (.done bucket key compSize shouldUpsert false, eff1)

/-! ## Status lifecycle of the event path (Status Tracker) -/

inductive JobStatus
  | pending
  | done
  | error
  | skipped
deriving Repr, DecidableEq

/-- The persisted per-object CompressionJobRecord. -/
structure CompressionJobRecord where
  status : JobStatus
  processing_started_at : Option Nat := none
  processing_finished_at : Option Nat := none
  compressed_size_bytes : Option Int := none
  compression_ratio_val : Option ℚ := none
  overwrote : Option Bool := none
  hit_target : Option Bool := none
  pass_used : Option Str := none
deriving Repr, DecidableEq

/-- Outcome of the dispatched worker call on the event path. -/
inductive WorkerOutcome
  | ok (original compressed : Int) (ratioVal : ℚ) (overwrote hitTarget : Bool) (passUsed : Str)
  | httpError (status : Nat)
  | timeout
  | fault (msg : Str)
deriving Repr, DecidableEq

def WorkerOutcome.isOk : WorkerOutcome → Bool
  | .ok _ _ _ _ _ _ => true
  | _ => false

/-- The threshold gate exactly as the source tests it: skip when the size is
a number and at most MIN_BYTES; unknown size never skips. -/
def sizeSkips (size : Option Int) : Bool :=
  match size with
  | some s => decide (s ≤ (MIN_BYTES : Int))
  | none => false

/-- Modelled from the spec: the per-object status lifecycle of the event
path (Status Tracker, sections 4.4 and 4.5 of the spec) is not present in
the source under src/ — the handlers there return HTTP responses but never
persist a per-object status record.  Reconstructed from the spec's
transition rules: a gate skip writes a terminal skipped record and nothing
else; otherwise pending is written with processing_started_at, and the
worker outcome finalizes it — ok to done with the result metrics, any
failure (non-ok HTTP status, timeout, or thrown fault) to error with
processing_finished_at set and every metric field left null.  The returned
list is the sequence of status writes, in order. -/
def runEventPath (size : Option Int) (startedAt finishedAt : Nat) (w : WorkerOutcome) :
    List CompressionJobRecord :=
  if sizeSkips size then [{ status := .skipped }]
  else
    let pendingRec : CompressionJobRecord :=
      { status := .pending, processing_started_at := some startedAt }
    let finalRec : CompressionJobRecord :=
      match w with
      | .ok _ compressed ratioVal overwrote hitTarget passUsed =>
        { status := .done, processing_started_at := some startedAt,
          processing_finished_at := some finishedAt,
          compressed_size_bytes := some compressed,
          compression_ratio_val := some ratioVal,
          overwrote := some overwrote, hit_target := some hitTarget,
          pass_used := some passUsed }
      | _ =>
        { status := .error, processing_started_at := some startedAt,
          processing_finished_at := some finishedAt }
    [pendingRec, finalRec]

/-! ## Handler reduction lemmas -/

theorem csHandler_post_manual (cfg : Config) (col : Collab) (req : CSReq)
    (hm : req.method = .post) (henv : cfg.envOk = true)
    (hrec : extractRecordFromWebhook req.body = none) :
    csHandler cfg col req = manualMode cfg col req.body := by
  unfold csHandler
  rw [hm, henv, hrec]
  simp

theorem csHandler_post_webhook (cfg : Config) (col : Collab) (req : CSReq) (record : Record)
    (hm : req.method = .post) (henv : cfg.envOk = true)
    (hrec : extractRecordFromWebhook req.body = some record)
    (hauth : cfg.webhookSecret = [] ∨ bearerToken req.authorization = cfg.webhookSecret) :
    csHandler cfg col req = webhookMode cfg col record := by
  unfold csHandler
  rw [hm, henv, hrec]
  have hcond : ¬ (cfg.webhookSecret ≠ [] ∧ bearerToken req.authorization ≠ cfg.webhookSecret) := by
    rcases hauth with h | h
    · exact fun hc => hc.1 h
    · exact fun hc => hc.2 h
  simp [hcond]

theorem manualMode_eq_afterInput (cfg : Config) (col : Collab) (body : CSBody) (buf : Bytes)
    (hinp : manualInput col body = some buf) :
    ∃ e0 : Effects, e0.upload = none ∧ e0.workerCalled = false ∧ e0.dbUpdateAttempted = false ∧
      manualMode cfg col body = manualAfterInput cfg col body e0 buf := by
  unfold manualInput at hinp
  unfold manualMode
  by_cases h1 : (!strTruthy body.supabasePath && !strTruthy body.fileBase64) = true
  · rw [if_pos h1] at hinp; exact Option.noConfusion hinp
  · rw [if_neg h1] at hinp ⊢
    by_cases h2 : strTruthy body.supabasePath = true
    · rw [if_pos h2] at hinp ⊢
      cases hd : col.downloadResult with
      | error msg => rw [hd] at hinp; exact Option.noConfusion hinp
      | ok b =>
        rw [hd] at hinp
        cases hinp
        exact ⟨{ downloadCalled := true }, rfl, rfl, rfl, rfl⟩
    · rw [if_neg h2] at hinp ⊢
      cases hinp
      exact ⟨{}, rfl, rfl, rfl, rfl⟩

theorem webhookMode_skip (cfg : Config) (col : Collab) (record : Record) (bucket name : Str)
    (s : Int)
    (hb : deriveBucket cfg.defaultBucket record = .ok bucket)
    (hn : deriveObjectName record bucket = .ok (some name))
    (hbne : bucket ≠ []) (hnne : name ≠ [])
    (hs : jsSize record = some s) (hle : s ≤ (MIN_BYTES : Int)) :
    webhookMode cfg col record = (.webhookSkipped s bucket name, {}) := by
  have h1 : (bucket.isEmpty || !strTruthy (some name)) = false := by
    simp [strTruthy, List.isEmpty_iff, hbne, hnne]
  unfold webhookMode
  simp only [hb, hn, hs, h1, Bool.false_eq_true, if_false, Option.getD_some, if_pos hle]

theorem webhookMode_process (cfg : Config) (col : Collab) (record : Record) (bucket name : Str)
    (hb : deriveBucket cfg.defaultBucket record = .ok bucket)
    (hn : deriveObjectName record bucket = .ok (some name))
    (hbne : bucket ≠ []) (hnne : name ≠ [])
    (hskip : sizeSkips (jsSize record) = false) :
    (webhookMode cfg col record).2 = { workerCalled := true } := by
  have h1 : (bucket.isEmpty || !strTruthy (some name)) = false := by
    simp [strTruthy, List.isEmpty_iff, hbne, hnne]
  unfold webhookMode
  simp only [hb, hn, h1, Bool.false_eq_true, if_false, Option.getD_some]
  cases hjs : jsSize record with
  | none =>
    simp only [hjs]
    cases col.workerResult <;> rfl
  | some s =>
    rw [hjs] at hskip
    simp only [sizeSkips, decide_eq_false_iff_not] at hskip
    simp only [hjs, if_neg hskip]
    cases col.workerResult <;> rfl

theorem round3_div_self (n : Nat) (h : n ≠ 0) : round3 ((n : ℚ) / (n : ℚ)) = 1 := by
  rw [div_self (by exact_mod_cast h : (n : ℚ) ≠ 0)]
  norm_num [round3, Int.floor_eq_iff]

theorem manualAfterInput_skip (cfg : Config) (col : Collab) (body : CSBody) (e0 : Effects)
    (buf : Bytes) (h : buf.length ≤ MIN_BYTES) :
    manualAfterInput cfg col body e0 buf = (.manualSkipped buf.length, e0) := by
  unfold manualAfterInput
  rw [if_pos h]

theorem manualAfterInput_big_resp (cfg : Config) (col : Collab) (body : CSBody) (e0 : Effects)
    (buf : Bytes) (h : ¬ buf.length ≤ MIN_BYTES) (hup : col.uploadResult = none) :
    (manualAfterInput cfg col body e0 buf).1 =
      .manualDone cfg.defaultBucket (manualKey col.now) buf.length buf.length
        (round3 ((buf.length : ℚ) / (buf.length : ℚ)))
        (strTruthy body.writingUploadId && decide (col.dbUpdateError = none)) := by
  unfold manualAfterInput
  rw [if_neg h, hup]
  by_cases hw : strTruthy body.writingUploadId = true
  · rw [hw]
    cases hdb : col.dbUpdateError <;> simp [hdb]
  · rw [Bool.not_eq_true] at hw
    rw [hw]
    simp

theorem manualAfterInput_big_upload (cfg : Config) (col : Collab) (body : CSBody) (e0 : Effects)
    (buf : Bytes) (h : ¬ buf.length ≤ MIN_BYTES) :
    (manualAfterInput cfg col body e0 buf).2.upload =
      some (cfg.defaultBucket, manualKey col.now, buf, true) := by
  unfold manualAfterInput
  rw [if_neg h]
  cases col.uploadResult with
  | some msg => rfl
  | none =>
    by_cases hw : strTruthy body.writingUploadId = true
    · rw [hw]
      cases col.dbUpdateError <;> rfl
    · rw [Bool.not_eq_true] at hw
      rw [hw]
      rfl

theorem manualAfterInput_workerCalled (cfg : Config) (col : Collab) (body : CSBody)
    (e0 : Effects) (buf : Bytes) :
    (manualAfterInput cfg col body e0 buf).2.workerCalled = e0.workerCalled := by
  unfold manualAfterInput
  by_cases h : buf.length ≤ MIN_BYTES
  · rw [if_pos h]
  · rw [if_neg h]
    cases col.uploadResult with
    | some msg => rfl
    | none =>
      by_cases hw : strTruthy body.writingUploadId = true
      · rw [hw]
        cases col.dbUpdateError <;> rfl
      · rw [Bool.not_eq_true] at hw
        rw [hw]
        rfl

theorem manualAfterInput_dbAttempted (cfg : Config) (col : Collab) (body : CSBody)
    (e0 : Effects) (buf : Bytes) (h : ¬ buf.length ≤ MIN_BYTES) (hup : col.uploadResult = none)
    (hw : strTruthy body.writingUploadId = true) :
    (manualAfterInput cfg col body e0 buf).2.dbUpdateAttempted = true := by
  unfold manualAfterInput
  rw [if_neg h, hup, hw]
  cases col.dbUpdateError <;> rfl

/-! ## Claims -/

theorem originPattern_point (o p : Str) :
    ((if p = o then true
      else if "*.".toList.isPrefixOf p then (p.drop 1).isSuffixOf o
      else false) = true)
      ↔ (p = o ∨ ∃ sfx, p = '*' :: '.' :: sfx ∧ ('.' :: sfx) <:+ o) := by
  by_cases h1 : p = o
  · simp [h1]
  · rw [if_neg h1]
    by_cases h2 : "*.".toList.isPrefixOf p = true
    · rw [if_pos h2]
      obtain ⟨t, ht⟩ := List.isPrefixOf_iff_prefix.mp h2
      constructor
      · intro hsuf
        refine Or.inr ⟨t, ?_, ?_⟩
        · rw [← ht]; rfl
        · have hdrop : p.drop 1 = '.' :: t := by rw [← ht]; rfl
          rw [hdrop] at hsuf
          exact List.isSuffixOf_iff_suffix.mp hsuf
      · rintro (h | ⟨sfx, hps, hsuf⟩)
        · exact absurd h h1
        · have hdrop : p.drop 1 = '.' :: sfx := by rw [hps]; rfl
          rw [hdrop]
          exact List.isSuffixOf_iff_suffix.mpr hsuf
    · rw [if_neg h2]
      simp only [Bool.false_eq_true, false_iff]
      rintro (h | ⟨sfx, hps, hsuf⟩)
      · exact h1 h
      · apply h2
        rw [hps]
        exact List.isPrefixOf_iff_prefix.mpr ⟨sfx, rfl⟩

/-- Claim C6: an origin is admitted for CORS exactly when it equals some
allow-list entry character for character, or some entry has the form
star-dot-suffix and the origin ends with dot-suffix; in particular
https://app.example.com is admitted under the entry *.example.com and
https://notapp.example.org is rejected under that same entry. -/
theorem c6_cors_origin_characterization (allowed : List Str) (o : Str)
    (hne : ∀ p ∈ allowed, p ≠ []) :
    (isOriginAllowed allowed (some o) = true ↔
      ∃ p ∈ allowed, p = o ∨ ∃ sfx, p = '*' :: '.' :: sfx ∧ ('.' :: sfx) <:+ o) ∧
    isOriginAllowed ["*.example.com".toList] (some "https://app.example.com".toList) = true ∧
    isOriginAllowed ["*.example.com".toList] (some "https://notapp.example.org".toList) = false := by
  refine ⟨?_, by decide, by decide⟩
  simp only [isOriginAllowed]
  by_cases ho : o.isEmpty = true
  · rw [if_pos ho]
    have ho' : o = [] := by simpa using ho
    subst ho'
    simp only [Bool.false_eq_true, false_iff]
    rintro ⟨p, hmem, h | ⟨sfx, hps, hsuf⟩⟩
    · exact hne p hmem h
    · simp at hsuf
  · rw [if_neg ho, List.any_eq_true]
    constructor
    · rintro ⟨p, hmem, hp⟩
      exact ⟨p, hmem, (originPattern_point o p).mp hp⟩
    · rintro ⟨p, hmem, hp⟩
      exact ⟨p, hmem, (originPattern_point o p).mpr hp⟩

theorem c6_witness :
    (isOriginAllowed ["*.example.com".toList] (some "https://app.example.com".toList) = true ↔
      ∃ p ∈ ["*.example.com".toList],
        p = "https://app.example.com".toList ∨
          ∃ sfx, p = '*' :: '.' :: sfx ∧ ('.' :: sfx) <:+ "https://app.example.com".toList) :=
  (c6_cors_origin_characterization ["*.example.com".toList] "https://app.example.com".toList
    (by decide)).1

/-- Claim C2 counterexample: a webhook record carrying only the legacy-style
object_path, path and file_name fields (no name, no file_path, no file_url)
resolves to no object name at all, although the claimed resolution order
(explicit fields, then legacy file_path, object_path, path, file_name, then
URL derivation, first non-empty wins) would resolve it to a/b.pdf: the
resolver of the source never consults object_path, path or file_name. -/
theorem c2_counterexample :
    deriveObjectName
        { bucket_id := some "b".toList, name := none, file_path := none,
          object_path := some "a/b.pdf".toList, path := some "a/b.pdf".toList,
          file_name := some "b.pdf".toList, file_url := none,
          metadata_size := none, size := none } "b".toList ≠
      .ok (some "a/b.pdf".toList) ∧
    deriveObjectName
        { bucket_id := some "b".toList, name := none, file_path := none,
          object_path := some "a/b.pdf".toList, path := some "a/b.pdf".toList,
          file_name := some "b.pdf".toList, file_url := none,
          metadata_size := none, size := none } "b".toList = .ok none :=
  ⟨by decide, by decide⟩

/-- Claim C2 (amended): the locator is resolved by trying, in order and
taking the first truthy result — for the object name: the explicit name
field, then the single legacy alternate field file_path, then derivation
from the embedded URL; for the bucket: the explicit bucket_id field, then
the configured default bucket, then derivation from the embedded URL.  An
explicit field value always takes precedence over any derived value, but the
legacy alternate names object_path, path and file_name are never consulted
by the resolver. -/
theorem c2_amended_resolution_order (r : Record) (db bucket : Str) :
    (∀ n, r.name = some n → n ≠ [] → deriveObjectName r bucket = .ok (some n)) ∧
    (∀ fp, (r.name = none ∨ r.name = some []) → r.file_path = some fp → fp ≠ [] →
      deriveObjectName r bucket = .ok (some fp)) ∧
    (∀ b, r.bucket_id = some b → b ≠ [] → deriveBucket db r = .ok b) ∧
    ((r.bucket_id = none ∨ r.bucket_id = some []) → db ≠ [] → deriveBucket db r = .ok db) ∧
    (∀ op pa fn,
      deriveObjectName { r with object_path := op, path := pa, file_name := fn } bucket =
        deriveObjectName r bucket ∧
      deriveBucket db { r with object_path := op, path := pa, file_name := fn } =
        deriveBucket db r) := by
  refine ⟨?_, ?_, ?_, ?_, fun op pa fn => ⟨rfl, rfl⟩⟩
  · intro n hn hne
    unfold deriveObjectName
    rw [hn]
    simp [jsOrNull, strTruthy, hne]
  · intro fp hn hfp hne
    unfold deriveObjectName
    rcases hn with h | h <;>
      · rw [h, hfp]
        simp [jsOrNull, strTruthy, hne]
  · intro b hb hne
    unfold deriveBucket
    rw [hb]
    simp [orDefault, List.isEmpty_iff, hne]
  · intro hb hne
    unfold deriveBucket
    rcases hb with h | h <;>
      · rw [h]
        simp [orDefault, List.isEmpty_iff, hne]

theorem c2_witness :
    deriveObjectName
        { bucket_id := some "bk".toList, name := some "n.pdf".toList,
          file_path := some "f.pdf".toList, object_path := none, path := none,
          file_name := none, file_url := none, metadata_size := none, size := none }
        "bk".toList = .ok (some "n.pdf".toList) :=
  (c2_amended_resolution_order
      { bucket_id := some "bk".toList, name := some "n.pdf".toList,
        file_path := some "f.pdf".toList, object_path := none, path := none,
        file_name := none, file_url := none, metadata_size := none, size := none }
      "db".toList "bk".toList).1 "n.pdf".toList rfl (by decide)

/-- Claim C3: on the event path, once the gate has passed and pending has
been recorded, a worker timeout, non-ok HTTP status or any thrown fault
leaves as final persisted record an error record with
processing_finished_at set and every compression metric field
(compressed_size_bytes, compression ratio, overwrote, hit_target,
pass_used) left null.  (The status lifecycle is modelled from the spec —
see runEventPath.) -/
theorem c3_pending_failure_error (size : Option Int) (startedAt finishedAt : Nat)
    (w : WorkerOutcome) (hgate : sizeSkips size = false) (hfail : w.isOk = false) :
    runEventPath size startedAt finishedAt w =
      [{ status := .pending, processing_started_at := some startedAt },
       { status := .error, processing_started_at := some startedAt,
         processing_finished_at := some finishedAt }] := by
  unfold runEventPath
  simp only [hgate, Bool.false_eq_true, if_false]
  cases w with
  | ok o c r ov ht p => simp [WorkerOutcome.isOk] at hfail
  | httpError s => rfl
  | timeout => rfl
  | fault m => rfl

theorem c3_witness :
    runEventPath (some 500000) 1 2 .timeout =
      [{ status := .pending, processing_started_at := some 1 },
       { status := .error, processing_started_at := some 1,
         processing_finished_at := some 2 }] :=
  c3_pending_failure_error (some 500000) 1 2 .timeout (by decide) rfl

theorem storeHandler_done (cfg : Config) (col : StoreCollab) (req : StoreReq) (key : Str)
    (hm : req.method = .post)
    (hauth : cfg.webhookSecret = [] ∨ bearerToken req.authorization = cfg.webhookSecret)
    (henv : cfg.envOk = true)
    (hb64 : strTruthy (jsOr req.body.dataBase64 req.body.fileBase64) = true)
    (hpath : req.body.path = some key) (hkey : key ≠ [])
    (hup : col.uploadError = none) :
    storeHandler cfg col req =
      (.done (req.body.bucket.getD cfg.defaultBucket) key
          (b64decode (stripDataUrl ((jsOr req.body.dataBase64 req.body.fileBase64).getD []))).length
          (req.body.upsert.getD false)
          (strTruthy req.body.writingUploadId && decide (col.dbError = none)),
        { upload := some (req.body.bucket.getD cfg.defaultBucket, key,
            b64decode (stripDataUrl ((jsOr req.body.dataBase64 req.body.fileBase64).getD [])),
            req.body.upsert.getD false),
          dbUpdateAttempted := strTruthy req.body.writingUploadId }) := by
  have hcond : ¬ (cfg.webhookSecret ≠ [] ∧ bearerToken req.authorization ≠ cfg.webhookSecret) := by
    rcases hauth with h | h
    · exact fun hc => hc.1 h
    · exact fun hc => hc.2 h
  have hkt : strTruthy (some key) = true := by
    simp [strTruthy, hkey]
  unfold storeHandler
  simp only [hm, if_neg hcond, henv, Bool.not_true, Bool.false_eq_true, if_false, hb64,
    hpath, hkt, if_true, hup]
  by_cases hw : strTruthy req.body.writingUploadId = true
  · rw [hw]
    cases hdb : col.dbError <;> simp [hdb]
  · rw [Bool.not_eq_true] at hw
    rw [hw]
    simp

/-- Claim C9: on the manual paths, when the request supplies a
writingUploadId and the Writing_Uploads link update fails, the response is
still HTTP 200 with ok true and the writingUploadUpdated flag false — the
link failure is never surfaced (shown for the manual mode of
compress-and-store.js and for store.js). -/
theorem c9_link_failure_not_surfaced
    (cfg : Config) (col : Collab) (req : CSReq) (buf : Bytes) (e : Str)
    (hm : req.method = .post) (henv : cfg.envOk = true)
    (hrec : extractRecordFromWebhook req.body = none)
    (hinp : manualInput col req.body = some buf)
    (hbig : ¬ buf.length ≤ MIN_BYTES)
    (hup : col.uploadResult = none)
    (hw : strTruthy req.body.writingUploadId = true)
    (hdb : col.dbUpdateError = some e)
    (scfg : Config) (scol : StoreCollab) (sreq : StoreReq) (skey : Str) (e2 : Str)
    (shm : sreq.method = .post)
    (shauth : scfg.webhookSecret = [] ∨ bearerToken sreq.authorization = scfg.webhookSecret)
    (shenv : scfg.envOk = true)
    (shb64 : strTruthy (jsOr sreq.body.dataBase64 sreq.body.fileBase64) = true)
    (shpath : sreq.body.path = some skey) (shkey : skey ≠ [])
    (shup : scol.uploadError = none)
    (shw : strTruthy sreq.body.writingUploadId = true)
    (shdb : scol.dbError = some e2) :
    ((csHandler cfg col req).1.statusCode = 200 ∧
      (csHandler cfg col req).1.okFlag = true ∧
      (∃ b k o c rv, (csHandler cfg col req).1 = .manualDone b k o c rv false) ∧
      (csHandler cfg col req).2.dbUpdateAttempted = true) ∧
    ((storeHandler scfg scol sreq).1.statusCode = 200 ∧
      (storeHandler scfg scol sreq).1.okFlag = true ∧
      (∃ b k n u, (storeHandler scfg scol sreq).1 = .done b k n u false) ∧
      (storeHandler scfg scol sreq).2.dbUpdateAttempted = true) := by
  constructor
  · rw [csHandler_post_manual cfg col req hm henv hrec]
    obtain ⟨e0, _, _, he0db, heq⟩ := manualMode_eq_afterInput cfg col req.body buf hinp
    rw [heq]
    have hresp := manualAfterInput_big_resp cfg col req.body e0 buf hbig hup
    have hwu : (strTruthy req.body.writingUploadId && decide (col.dbUpdateError = none)) = false := by
      rw [hw, hdb]; simp
    rw [hwu] at hresp
    refine ⟨by rw [hresp]; rfl, by rw [hresp]; rfl, ⟨_, _, _, _, _, hresp⟩, ?_⟩
    exact manualAfterInput_dbAttempted cfg col req.body e0 buf hbig hup hw
  · rw [storeHandler_done scfg scol sreq skey shm shauth shenv shb64 shpath shkey shup]
    have hwu : (strTruthy sreq.body.writingUploadId && decide (scol.dbError = none)) = false := by
      rw [shw, shdb]; simp
    rw [hwu]
    exact ⟨rfl, rfl, ⟨_, _, _, _, rfl⟩, by rw [shw]⟩

theorem c9_witness :
    (csHandler { defaultBucket := "pdfs".toList, webhookSecret := [], envOk := true }
        { workerResult := .error [], downloadResult := .ok (List.replicate 204801 0),
          uploadResult := none, dbUpdateError := some "db down".toList, now := 0 }
        { method := .post, authorization := none, origin := none,
          body := { record := none, newRec := none, supabasePath := some "in.pdf".toList,
                    fileBase64 := none, writingUploadId := some "42".toList } }).1.statusCode =
      200 ∧
    (storeHandler { defaultBucket := "pdfs".toList, webhookSecret := [], envOk := true }
        { uploadError := none, dbError := some "down".toList, now := 0 }
        { method := .post, authorization := none, origin := none,
          body := { bucket := none, path := some "k.pdf".toList, fileName := none,
                    dataBase64 := some "QUJD".toList, fileBase64 := none, contentType := none,
                    upsert := none, cacheControl := none,
                    writingUploadId := some "7".toList } }).1.statusCode = 200 := by
  have h := c9_link_failure_not_surfaced
    { defaultBucket := "pdfs".toList, webhookSecret := [], envOk := true }
    { workerResult := .error [], downloadResult := .ok (List.replicate 204801 0),
      uploadResult := none, dbUpdateError := some "db down".toList, now := 0 }
    { method := .post, authorization := none, origin := none,
      body := { record := none, newRec := none, supabasePath := some "in.pdf".toList,
                fileBase64 := none, writingUploadId := some "42".toList } }
    (List.replicate 204801 0) "db down".toList rfl rfl rfl rfl
    (by rw [List.length_replicate]; norm_num [MIN_BYTES]) rfl (by decide) rfl
    { defaultBucket := "pdfs".toList, webhookSecret := [], envOk := true }
    { uploadError := none, dbError := some "down".toList, now := 0 }
    { method := .post, authorization := none, origin := none,
      body := { bucket := none, path := some "k.pdf".toList, fileName := none,
                dataBase64 := some "QUJD".toList, fileBase64 := none, contentType := none,
                upsert := none, cacheControl := none, writingUploadId := some "7".toList } }
    "k.pdf".toList "down".toList rfl (Or.inl rfl) rfl (by decide) rfl (by decide) rfl
    (by decide) rfl
  exact ⟨h.1.1, h.2.1⟩

theorem manualAfterInput_downloadCalled (cfg : Config) (col : Collab) (body : CSBody)
    (e0 : Effects) (buf : Bytes) :
    (manualAfterInput cfg col body e0 buf).2.downloadCalled = e0.downloadCalled := by
  unfold manualAfterInput
  by_cases h : buf.length ≤ MIN_BYTES
  · rw [if_pos h]
  · rw [if_neg h]
    cases col.uploadResult with
    | some msg => rfl
    | none =>
      by_cases hw : strTruthy body.writingUploadId = true
      · rw [hw]
        cases col.dbUpdateError <;> rfl
      · rw [Bool.not_eq_true] at hw
        rw [hw]
        rfl

/-- Claim C10: in the event endpoint the bearer check applies only to
requests carrying a webhook envelope (a record or new field): a manual-mode
request is handled identically whatever the Authorization header says, and
even with the webhook secret configured the full manual path — storage
download, storage upload and the database link update — runs with no
Authorization check. -/
theorem c10_manual_mode_bypasses_auth
    (cfg : Config) (col : Collab) (req : CSReq) (a1 a2 : Option Str) (buf : Bytes)
    (hrec : extractRecordFromWebhook req.body = none)
    (_hsecret : cfg.webhookSecret ≠ [])
    (hm : req.method = .post) (henv : cfg.envOk = true)
    (hsp : strTruthy req.body.supabasePath = true)
    (hdl : col.downloadResult = .ok buf)
    (hbig : ¬ buf.length ≤ MIN_BYTES)
    (hup : col.uploadResult = none)
    (hw : strTruthy req.body.writingUploadId = true) :
    (csHandler cfg col { req with authorization := a1 } =
      csHandler cfg col { req with authorization := a2 }) ∧
    (csHandler cfg col req).1 ≠ .unauthorized ∧
    (csHandler cfg col req).2.downloadCalled = true ∧
    (csHandler cfg col req).2.upload = some (cfg.defaultBucket, manualKey col.now, buf, true) ∧
    (csHandler cfg col req).2.dbUpdateAttempted = true := by
  have hmm : manualMode cfg col req.body =
      manualAfterInput cfg col req.body { downloadCalled := true } buf := by
    unfold manualMode
    rw [hsp]
    simp only [Bool.not_true, Bool.false_and, Bool.false_eq_true, if_false, if_true, hdl]
  constructor
  · rw [csHandler_post_manual cfg col { req with authorization := a1 } hm henv hrec,
      csHandler_post_manual cfg col { req with authorization := a2 } hm henv hrec]
  refine ⟨?_, ?_, ?_, ?_⟩ <;>
    rw [csHandler_post_manual cfg col req hm henv hrec, hmm]
  · rw [manualAfterInput_big_resp cfg col req.body _ buf hbig hup]
    intro hcontra
    exact CSResp.noConfusion hcontra
  · rw [manualAfterInput_downloadCalled]
  · rw [manualAfterInput_big_upload cfg col req.body _ buf hbig]
  · exact manualAfterInput_dbAttempted cfg col req.body _ buf hbig hup hw

theorem c10_witness :
    (csHandler { defaultBucket := "pdfs".toList, webhookSecret := "s3cr3t".toList, envOk := true }
        { workerResult := .error [], downloadResult := .ok (List.replicate 204801 0),
          uploadResult := none, dbUpdateError := none, now := 0 }
        { method := .post, authorization := some "Bearer wrong".toList, origin := none,
          body := { record := none, newRec := none, supabasePath := some "in.pdf".toList,
                    fileBase64 := none, writingUploadId := some "42".toList } }).1 ≠
      CSResp.unauthorized ∧
    (csHandler { defaultBucket := "pdfs".toList, webhookSecret := "s3cr3t".toList, envOk := true }
        { workerResult := .error [], downloadResult := .ok (List.replicate 204801 0),
          uploadResult := none, dbUpdateError := none, now := 0 }
        { method := .post, authorization := some "Bearer wrong".toList, origin := none,
          body := { record := none, newRec := none, supabasePath := some "in.pdf".toList,
                    fileBase64 := none, writingUploadId := some "42".toList } }).2.upload =
      some ("pdfs".toList, manualKey 0, List.replicate 204801 0, true) := by
  have h := c10_manual_mode_bypasses_auth
    { defaultBucket := "pdfs".toList, webhookSecret := "s3cr3t".toList, envOk := true }
    { workerResult := .error [], downloadResult := .ok (List.replicate 204801 0),
      uploadResult := none, dbUpdateError := none, now := 0 }
    { method := .post, authorization := some "Bearer wrong".toList, origin := none,
      body := { record := none, newRec := none, supabasePath := some "in.pdf".toList,
                fileBase64 := none, writingUploadId := some "42".toList } }
    (some "Bearer wrong".toList) none (List.replicate 204801 0)
    rfl (by decide) rfl rfl (by decide) rfl
    (by rw [List.length_replicate]; norm_num [MIN_BYTES]) rfl (by decide)
  exact ⟨h.2.1, h.2.2.2.1⟩

/-- Claim C5 counterexample: with the webhook secret configured and an
Authorization header that is not Bearer secret, a manual-mode POST to
compress-and-store.js is not rejected: it answers 200 and performs a storage
upload, contradicting the claim that every inbound POST with a bad bearer
token is answered 401 before any storage mutation. -/
theorem c5_counterexample :
    (csHandler { defaultBucket := "docs".toList, webhookSecret := "s3cr3t".toList, envOk := true }
        { workerResult := .error [], downloadResult := .ok (List.replicate 204801 7),
          uploadResult := none, dbUpdateError := none, now := 5 }
        { method := .post, authorization := some "Bearer wrong".toList, origin := none,
          body := { record := none, newRec := none, supabasePath := some "big.pdf".toList,
                    fileBase64 := none, writingUploadId := none } }).1 ≠
      CSResp.unauthorized ∧
    (csHandler { defaultBucket := "docs".toList, webhookSecret := "s3cr3t".toList, envOk := true }
        { workerResult := .error [], downloadResult := .ok (List.replicate 204801 7),
          uploadResult := none, dbUpdateError := none, now := 5 }
        { method := .post, authorization := some "Bearer wrong".toList, origin := none,
          body := { record := none, newRec := none, supabasePath := some "big.pdf".toList,
                    fileBase64 := none, writingUploadId := none } }).1.statusCode = 200 ∧
    (csHandler { defaultBucket := "docs".toList, webhookSecret := "s3cr3t".toList, envOk := true }
        { workerResult := .error [], downloadResult := .ok (List.replicate 204801 7),
          uploadResult := none, dbUpdateError := none, now := 5 }
        { method := .post, authorization := some "Bearer wrong".toList, origin := none,
          body := { record := none, newRec := none, supabasePath := some "big.pdf".toList,
                    fileBase64 := none, writingUploadId := none } }).2.upload ≠ none := by
  have hbig : ¬ (List.replicate 204801 (7:Nat)).length ≤ MIN_BYTES := by
    rw [List.length_replicate]; norm_num [MIN_BYTES]
  have h0 := csHandler_post_manual
    { defaultBucket := "docs".toList, webhookSecret := "s3cr3t".toList, envOk := true }
    { workerResult := .error [], downloadResult := .ok (List.replicate 204801 7),
      uploadResult := none, dbUpdateError := none, now := 5 }
    { method := .post, authorization := some "Bearer wrong".toList, origin := none,
      body := { record := none, newRec := none, supabasePath := some "big.pdf".toList,
                fileBase64 := none, writingUploadId := none } }
    rfl rfl rfl
  obtain ⟨e0, _, _, _, heq⟩ := manualMode_eq_afterInput
    { defaultBucket := "docs".toList, webhookSecret := "s3cr3t".toList, envOk := true }
    { workerResult := .error [], downloadResult := .ok (List.replicate 204801 7),
      uploadResult := none, dbUpdateError := none, now := 5 }
    { record := none, newRec := none, supabasePath := some "big.pdf".toList,
      fileBase64 := none, writingUploadId := none }
    (List.replicate 204801 7) rfl
  rw [h0, heq, manualAfterInput_big_resp _ _ _ _ _ hbig rfl,
    manualAfterInput_big_upload _ _ _ _ _ hbig]
  refine ⟨fun hc => CSResp.noConfusion hc, rfl, fun hc => Option.noConfusion hc⟩

/-- Claim C5 (amended): when a webhook secret is configured and the
Authorization header does not carry exactly Bearer secret, a
webhook-envelope POST to the event endpoint and every POST to the store
endpoint are rejected 401 before any storage mutation or database write (no
effects); manual-mode POSTs to the event endpoint are not subject to the
check (see the counterexample). -/
theorem c5_amended_bearer_check
    (cfg : Config) (col : Collab) (req : CSReq) (record : Record)
    (hm : req.method = .post) (henv : cfg.envOk = true)
    (hrec : extractRecordFromWebhook req.body = some record)
    (hsecret : cfg.webhookSecret ≠ [])
    (htok : bearerToken req.authorization ≠ cfg.webhookSecret)
    (scfg : Config) (scol : StoreCollab) (sreq : StoreReq)
    (shm : sreq.method = .post)
    (hsecret2 : scfg.webhookSecret ≠ [])
    (htok2 : bearerToken sreq.authorization ≠ scfg.webhookSecret) :
    csHandler cfg col req = (.unauthorized, {}) ∧
    storeHandler scfg scol sreq = (.unauthorized, {}) := by
  constructor
  · unfold csHandler
    rw [hm, henv, hrec]
    simp only [if_pos (And.intro hsecret htok), if_true, Bool.not_true, Bool.false_eq_true,
      if_false]
  · unfold storeHandler
    rw [shm]
    simp only [if_pos (And.intro hsecret2 htok2)]

theorem c5_witness :
    csHandler { defaultBucket := "docs".toList, webhookSecret := "s3cr3t".toList, envOk := true }
        { workerResult := .error [], downloadResult := .error [], uploadResult := none,
          dbUpdateError := none, now := 0 }
        { method := .post, authorization := some "Bearer nope".toList, origin := none,
          body := { record := some
                        { bucket_id := some "b".toList, name := some "n.pdf".toList,
                          file_path := none, object_path := none, path := none,
                          file_name := none, file_url := none,
                          metadata_size := some 500000, size := none },
                      newRec := none, supabasePath := none, fileBase64 := none,
                      writingUploadId := none } } = (.unauthorized, {}) ∧
    storeHandler { defaultBucket := "docs".toList, webhookSecret := "s3cr3t".toList, envOk := true }
        { uploadError := none, dbError := none, now := 0 }
        { method := .post, authorization := none, origin := none,
          body := { bucket := none, path := some "k.pdf".toList, fileName := none,
                    dataBase64 := some "QUJD".toList, fileBase64 := none, contentType := none,
                    upsert := none, cacheControl := none, writingUploadId := none } } =
      (.unauthorized, {}) :=
  c5_amended_bearer_check
    { defaultBucket := "docs".toList, webhookSecret := "s3cr3t".toList, envOk := true }
    { workerResult := .error [], downloadResult := .error [], uploadResult := none,
      dbUpdateError := none, now := 0 }
    { method := .post, authorization := some "Bearer nope".toList, origin := none,
      body := { record := some
                    { bucket_id := some "b".toList, name := some "n.pdf".toList,
                      file_path := none, object_path := none, path := none,
                      file_name := none, file_url := none,
                      metadata_size := some 500000, size := none },
                  newRec := none, supabasePath := none, fileBase64 := none,
                  writingUploadId := none } }
    { bucket_id := some "b".toList, name := some "n.pdf".toList, file_path := none,
      object_path := none, path := none, file_name := none, file_url := none,
      metadata_size := some 500000, size := none }
    rfl rfl rfl (by decide) (by decide)
    { defaultBucket := "docs".toList, webhookSecret := "s3cr3t".toList, envOk := true }
    { uploadError := none, dbError := none, now := 0 }
    { method := .post, authorization := none, origin := none,
      body := { bucket := none, path := some "k.pdf".toList, fileName := none,
                dataBase64 := some "QUJD".toList, fileBase64 := none, contentType := none,
                upsert := none, cacheControl := none, writingUploadId := none } }
    rfl (by decide) (by decide)

theorem webhookMode_upload_none (cfg : Config) (col : Collab) (record : Record) :
    (webhookMode cfg col record).2.upload = none := by
  unfold webhookMode
  repeat' split
  all_goals rfl

theorem manualAfterInput_upload_none_or_true (cfg : Config) (col : Collab) (body : CSBody)
    (e0 : Effects) (buf : Bytes) (he0 : e0.upload = none) :
    (manualAfterInput cfg col body e0 buf).2.upload = none ∨
    (manualAfterInput cfg col body e0 buf).2.upload =
      some (cfg.defaultBucket, manualKey col.now, buf, true) := by
  unfold manualAfterInput
  split
  · exact Or.inl he0
  · right
    repeat' split
    all_goals rfl

theorem csHandler_upload_none_or_true (cfg : Config) (col : Collab) (req : CSReq) :
    (csHandler cfg col req).2.upload = none ∨
    ∃ b k bs, (csHandler cfg col req).2.upload = some (b, k, bs, true) := by
  unfold csHandler
  split
  · exact Or.inl rfl
  · exact Or.inl rfl
  · split
    · exact Or.inl rfl
    · split
      · split
        · exact Or.inl rfl
        · exact Or.inl (webhookMode_upload_none cfg col _)
      · unfold manualMode
        split
        · exact Or.inl rfl
        · split
          · split
            · exact Or.inl rfl
            · rcases manualAfterInput_upload_none_or_true cfg col req.body
                { downloadCalled := true } _ rfl with h | h
              · exact Or.inl h
              · exact Or.inr ⟨_, _, _, h⟩
          · rcases manualAfterInput_upload_none_or_true cfg col req.body {} _ rfl with h | h
            · exact Or.inl h
            · exact Or.inr ⟨_, _, _, h⟩

theorem csHandler_upload_flag (cfg : Config) (col : Collab) (req : CSReq)
    (b k : Str) (bs : Bytes) (u : Bool)
    (h : (csHandler cfg col req).2.upload = some (b, k, bs, u)) : u = true := by
  rcases csHandler_upload_none_or_true cfg col req with h0 | ⟨b2, k2, bs2, h0⟩
  · rw [h0] at h
    exact Option.noConfusion h
  · rw [h0] at h
    simp only [Option.some.injEq, Prod.mk.injEq] at h
    exact h.2.2.2.symm

/-- Claim C4 counterexample: the manual mode of the event endpoint
(compress-and-store.js) accepts no upsert flag at all — its request body has
no such field — and uploads with upsert hardcoded to true, so a manual
request that does not supply the flag is stored in overwriting mode,
contradicting the claimed non-overwriting default of the manual ingest
path. -/
theorem c4_counterexample :
    (csHandler { defaultBucket := "mydocs".toList, webhookSecret := [], envOk := true }
        { workerResult := .error [], downloadResult := .ok (List.replicate 204801 3),
          uploadResult := none, dbUpdateError := none, now := 7 }
        { method := .post, authorization := none, origin := none,
          body := { record := none, newRec := none, supabasePath := some "raw.pdf".toList,
                    fileBase64 := none, writingUploadId := none } }).2.upload =
      some ("mydocs".toList, manualKey 7, List.replicate 204801 3, true) := by
  have hbig : ¬ (List.replicate 204801 (3:Nat)).length ≤ MIN_BYTES := by
    rw [List.length_replicate]; norm_num [MIN_BYTES]
  have h0 := csHandler_post_manual
    { defaultBucket := "mydocs".toList, webhookSecret := [], envOk := true }
    { workerResult := .error [], downloadResult := .ok (List.replicate 204801 3),
      uploadResult := none, dbUpdateError := none, now := 7 }
    { method := .post, authorization := none, origin := none,
      body := { record := none, newRec := none, supabasePath := some "raw.pdf".toList,
                fileBase64 := none, writingUploadId := none } }
    rfl rfl rfl
  obtain ⟨e0, _, _, _, heq⟩ := manualMode_eq_afterInput
    { defaultBucket := "mydocs".toList, webhookSecret := [], envOk := true }
    { workerResult := .error [], downloadResult := .ok (List.replicate 204801 3),
      uploadResult := none, dbUpdateError := none, now := 7 }
    { record := none, newRec := none, supabasePath := some "raw.pdf".toList,
      fileBase64 := none, writingUploadId := none }
    (List.replicate 204801 3) rfl
  rw [h0, heq, manualAfterInput_big_upload _ _ _ _ _ hbig]

/-- Claim C4 (amended): on the store endpoint, a request that does not
supply the upsert flag as a boolean uploads in non-overwriting mode (the
flag defaults to false); the manual mode of the event endpoint, by
contrast, reads no such flag and every storage upload it performs is in
overwriting mode (upsert is hardcoded true). -/
theorem c4_amended_upsert_default
    (scfg : Config) (scol : StoreCollab) (sreq : StoreReq) (skey : Str)
    (shm : sreq.method = .post)
    (shauth : scfg.webhookSecret = [] ∨ bearerToken sreq.authorization = scfg.webhookSecret)
    (shenv : scfg.envOk = true)
    (shb64 : strTruthy (jsOr sreq.body.dataBase64 sreq.body.fileBase64) = true)
    (shpath : sreq.body.path = some skey) (shkey : skey ≠ [])
    (shup : scol.uploadError = none)
    (hupsert : sreq.body.upsert = none) :
    (storeHandler scfg scol sreq).2.upload =
      some (sreq.body.bucket.getD scfg.defaultBucket, skey,
        b64decode (stripDataUrl ((jsOr sreq.body.dataBase64 sreq.body.fileBase64).getD [])),
        false) ∧
    (∀ cfg col req b k bs u,
      (csHandler cfg col req).2.upload = some (b, k, bs, u) → u = true) := by
  constructor
  · rw [storeHandler_done scfg scol sreq skey shm shauth shenv shb64 shpath shkey shup]
    rw [hupsert]
    rfl
  · intro cfg col req b k bs u h
    exact csHandler_upload_flag cfg col req b k bs u h

theorem c4_witness :
    (storeHandler { defaultBucket := "mydocs".toList, webhookSecret := [], envOk := true }
        { uploadError := none, dbError := none, now := 0 }
        { method := .post, authorization := none, origin := none,
          body := { bucket := none, path := some "w.pdf".toList, fileName := none,
                    dataBase64 := some "QUJD".toList, fileBase64 := none, contentType := none,
                    upsert := none, cacheControl := none,
                    writingUploadId := none } }).2.upload =
      some ("mydocs".toList, "w.pdf".toList, b64decode (stripDataUrl "QUJD".toList), false) :=
  (c4_amended_upsert_default
    { defaultBucket := "mydocs".toList, webhookSecret := [], envOk := true }
    { uploadError := none, dbError := none, now := 0 }
    { method := .post, authorization := none, origin := none,
      body := { bucket := none, path := some "w.pdf".toList, fileName := none,
                dataBase64 := some "QUJD".toList, fileBase64 := none, contentType := none,
                upsert := none, cacheControl := none, writingUploadId := none } }
    "w.pdf".toList rfl (Or.inl rfl) rfl (by decide) rfl (by decide) rfl rfl).1

/-- Claim C8: on the manual path of the event endpoint, for every input that
passes the threshold gate and uploads successfully, the bytes written to
storage are byte-for-byte the decoded input bytes, the reported
compressed_size_bytes equals original_size_bytes, and the reported
compression ratio is compressed over original rounded to three decimal
places — hence exactly 1. -/
theorem c8_manual_passthrough (cfg : Config) (col : Collab) (req : CSReq) (buf : Bytes)
    (hm : req.method = .post) (henv : cfg.envOk = true)
    (hrec : extractRecordFromWebhook req.body = none)
    (hinp : manualInput col req.body = some buf)
    (hbig : ¬ buf.length ≤ MIN_BYTES)
    (hup : col.uploadResult = none) :
    (csHandler cfg col req).2.upload = some (cfg.defaultBucket, manualKey col.now, buf, true) ∧
    (∃ wu, (csHandler cfg col req).1 =
      .manualDone cfg.defaultBucket (manualKey col.now) buf.length buf.length
        (round3 ((buf.length : ℚ) / (buf.length : ℚ))) wu) ∧
    round3 ((buf.length : ℚ) / (buf.length : ℚ)) = 1 := by
  have hnz : buf.length ≠ 0 := by
    intro hz
    exact hbig (by rw [hz]; exact Nat.zero_le _)
  obtain ⟨e0, _, _, _, heq⟩ := manualMode_eq_afterInput cfg col req.body buf hinp
  rw [csHandler_post_manual cfg col req hm henv hrec, heq]
  exact ⟨manualAfterInput_big_upload cfg col req.body e0 buf hbig,
    ⟨_, manualAfterInput_big_resp cfg col req.body e0 buf hbig hup⟩,
    round3_div_self buf.length hnz⟩

theorem c8_witness :
    (csHandler { defaultBucket := "pdfs".toList, webhookSecret := [], envOk := true }
        { workerResult := .error [], downloadResult := .ok (List.replicate 204801 0),
          uploadResult := none, dbUpdateError := none, now := 2 }
        { method := .post, authorization := none, origin := none,
          body := { record := none, newRec := none, supabasePath := some "in.pdf".toList,
                    fileBase64 := none, writingUploadId := none } }).2.upload =
      some ("pdfs".toList, manualKey 2, List.replicate 204801 0, true) ∧
    round3 (((List.replicate 204801 (0:Nat)).length : ℚ) /
      ((List.replicate 204801 (0:Nat)).length : ℚ)) = 1 := by
  have h := c8_manual_passthrough
    { defaultBucket := "pdfs".toList, webhookSecret := [], envOk := true }
    { workerResult := .error [], downloadResult := .ok (List.replicate 204801 0),
      uploadResult := none, dbUpdateError := none, now := 2 }
    { method := .post, authorization := none, origin := none,
      body := { record := none, newRec := none, supabasePath := some "in.pdf".toList,
                fileBase64 := none, writingUploadId := none } }
    (List.replicate 204801 0) rfl rfl rfl rfl
    (by rw [List.length_replicate]; norm_num [MIN_BYTES]) rfl
  exact ⟨h.1, h.2.2⟩

/-- Claim C1: on both the event path and the manual path the skip/process
decision is: a known size at most 200*1024 bytes gives a terminal skip in
which the worker is never called and nothing is stored; a known size above
the threshold, or an unknown size (not a number), proceeds — the worker is
called on the event path, the manual path goes on to store. -/
theorem c1_threshold_skip_or_process
    (cfg : Config) (col : Collab) (reqW reqM : CSReq) (record : Record)
    (bucket name : Str) (buf : Bytes)
    (hmW : reqW.method = .post) (henv : cfg.envOk = true)
    (hrecW : extractRecordFromWebhook reqW.body = some record)
    (hauth : cfg.webhookSecret = [] ∨ bearerToken reqW.authorization = cfg.webhookSecret)
    (hb : deriveBucket cfg.defaultBucket record = .ok bucket)
    (hn : deriveObjectName record bucket = .ok (some name))
    (hbne : bucket ≠ []) (hnne : name ≠ [])
    (hmM : reqM.method = .post)
    (hrecM : extractRecordFromWebhook reqM.body = none)
    (hinp : manualInput col reqM.body = some buf) :
    (∀ s : Int, jsSize record = some s → s ≤ (MIN_BYTES : Int) →
      csHandler cfg col reqW = (.webhookSkipped s bucket name, {})) ∧
    (∀ s : Int, jsSize record = some s → (MIN_BYTES : Int) < s →
      (csHandler cfg col reqW).2.workerCalled = true) ∧
    (jsSize record = none → (csHandler cfg col reqW).2.workerCalled = true) ∧
    (buf.length ≤ MIN_BYTES →
      (csHandler cfg col reqM).1 = .manualSkipped buf.length ∧
      (csHandler cfg col reqM).2.upload = none ∧
      (csHandler cfg col reqM).2.workerCalled = false) ∧
    (MIN_BYTES < buf.length →
      (csHandler cfg col reqM).2.upload =
        some (cfg.defaultBucket, manualKey col.now, buf, true) ∧
      (csHandler cfg col reqM).2.workerCalled = false) := by
  have hW := csHandler_post_webhook cfg col reqW record hmW henv hrecW hauth
  have hM := csHandler_post_manual cfg col reqM hmM henv hrecM
  obtain ⟨e0, he0up, he0wc, _, heq⟩ := manualMode_eq_afterInput cfg col reqM.body buf hinp
  refine ⟨?_, ?_, ?_, ?_, ?_⟩
  · intro s hs hle
    rw [hW]
    exact webhookMode_skip cfg col record bucket name s hb hn hbne hnne hs hle
  · intro s hs hlt
    rw [hW, webhookMode_process cfg col record bucket name hb hn hbne hnne ?_]
    rw [sizeSkips.eq_def, hs]
    simp [not_le.mpr hlt]
  · intro hs
    rw [hW, webhookMode_process cfg col record bucket name hb hn hbne hnne ?_]
    rw [sizeSkips.eq_def, hs]
  · intro hle
    rw [hM, heq, manualAfterInput_skip cfg col reqM.body e0 buf hle]
    exact ⟨rfl, he0up, he0wc⟩
  · intro hlt
    rw [hM, heq]
    refine ⟨manualAfterInput_big_upload cfg col reqM.body e0 buf (not_le.mpr hlt), ?_⟩
    rw [manualAfterInput_workerCalled cfg col reqM.body e0 buf]
    exact he0wc

theorem c1_witness :
    csHandler { defaultBucket := [], webhookSecret := [], envOk := true }
        { workerResult := .error [], downloadResult := .ok [1, 2, 3], uploadResult := none,
          dbUpdateError := none, now := 0 }
        { method := .post, authorization := none, origin := none,
          body := { record := some
                      { bucket_id := some "bk".toList, name := some "n.pdf".toList,
                        file_path := none, object_path := none, path := none,
                        file_name := none, file_url := none,
                        metadata_size := some 1000, size := none },
                    newRec := none, supabasePath := none, fileBase64 := none,
                    writingUploadId := none } } =
      (.webhookSkipped 1000 "bk".toList "n.pdf".toList, {}) ∧
    (csHandler { defaultBucket := [], webhookSecret := [], envOk := true }
        { workerResult := .error [], downloadResult := .ok [1, 2, 3], uploadResult := none,
          dbUpdateError := none, now := 0 }
        { method := .post, authorization := none, origin := none,
          body := { record := none, newRec := none, supabasePath := some "x.pdf".toList,
                    fileBase64 := none, writingUploadId := none } }).1 =
      .manualSkipped 3 ∧
    (csHandler { defaultBucket := [], webhookSecret := [], envOk := true }
        { workerResult := .error [], downloadResult := .ok [1, 2, 3], uploadResult := none,
          dbUpdateError := none, now := 0 }
        { method := .post, authorization := none, origin := none,
          body := { record := none, newRec := none, supabasePath := some "x.pdf".toList,
                    fileBase64 := none, writingUploadId := none } }).2.upload = none := by
  have h := c1_threshold_skip_or_process
    { defaultBucket := [], webhookSecret := [], envOk := true }
    { workerResult := .error [], downloadResult := .ok [1, 2, 3], uploadResult := none,
      dbUpdateError := none, now := 0 }
    { method := .post, authorization := none, origin := none,
      body := { record := some
                  { bucket_id := some "bk".toList, name := some "n.pdf".toList,
                    file_path := none, object_path := none, path := none,
                    file_name := none, file_url := none,
                    metadata_size := some 1000, size := none },
                newRec := none, supabasePath := none, fileBase64 := none,
                writingUploadId := none } }
    { method := .post, authorization := none, origin := none,
      body := { record := none, newRec := none, supabasePath := some "x.pdf".toList,
                fileBase64 := none, writingUploadId := none } }
    { bucket_id := some "bk".toList, name := some "n.pdf".toList, file_path := none,
      object_path := none, path := none, file_name := none, file_url := none,
      metadata_size := some 1000, size := none }
    "bk".toList "n.pdf".toList [1, 2, 3]
    rfl rfl rfl (Or.inl rfl) (by decide) (by decide) (by decide) (by decide)
    rfl rfl rfl
  exact ⟨h.1 1000 rfl (by decide), (h.2.2.2.1 (by decide)).1, (h.2.2.2.1 (by decide)).2.1⟩

theorem findObjectBucket_of_matchAt (s cap : Str) (hne : s ≠ [])
    (h : matchObjectBucketAt s = some cap) : findObjectBucket s = some cap := by
  cases s with
  | nil => exact absurd rfl hne
  | cons c rest =>
    unfold findObjectBucket
    rw [h]

theorem findDecodeIdxAux_cons_ne (b p : Str) (ps : List Str) (i : Nat) (d : Str)
    (hd : percentDecode p = some d) (hne : d ≠ b) :
    findDecodeIdxAux b (p :: ps) i = findDecodeIdxAux b ps (i + 1) := by
  unfold findDecodeIdxAux
  rw [hd]
  simp only [if_neg hne]
  rw [findDecodeIdxAux.eq_def]

theorem findDecodeIdxAux_cons_eq (b p : Str) (ps : List Str) (i : Nat)
    (hd : percentDecode p = some b) :
    findDecodeIdxAux b (p :: ps) i = .ok (some i) := by
  unfold findDecodeIdxAux
  rw [hd]
  simp

/-- Claim C7 counterexample: the resolver does not, in general, form the
object name from the segments after the bucket component.  It locates the
bucket by scanning every path part from the first /object/ occurrence for
the first one whose percent-decode equals the bucket, so a bucket literally
named public under the canonical URL .../object/public/public/f.pdf is found
at the visibility segment, and the derived name is public/f.pdf instead of
the claimed f.pdf. -/
theorem c7_counterexample :
    deriveBucket []
        { bucket_id := none, name := none, file_path := none, object_path := none,
          path := none, file_name := none,
          file_url := some
            "https://x.supabase.co/storage/v1/object/public/public/f.pdf".toList,
          metadata_size := none, size := none } = .ok "public".toList ∧
    deriveObjectName
        { bucket_id := none, name := none, file_path := none, object_path := none,
          path := none, file_name := none,
          file_url := some
            "https://x.supabase.co/storage/v1/object/public/public/f.pdf".toList,
          metadata_size := none, size := none } "public".toList =
      .ok (some "public/f.pdf".toList) ∧
    "public/f.pdf".toList ≠ "f.pdf".toList := by
  refine ⟨by decide, by decide, by decide⟩

/-- Claim C7 (amended): for every record whose locator cannot be obtained
from explicit or legacy fields but which carries an embedded object-store
URL, and whose decoded bucket does not collide with an earlier path
component of the URL (the bucket is not named object or like the visibility
segment, and no earlier /object/ occurs in the URL), the resolver matches
the path segment following /object/public/ or /object/signed/, takes the
next path component as the bucket after percent-decoding it, and forms the
object name by percent-decoding and joining all path segments after the
bucket (multiple slashes inside the decoded path, from empty segments or
decoded %2F escapes, are kept as is; every derived segment is
percent-decoded).  On a collision the name is instead derived from after
the earlier matching component — see the counterexample. -/
theorem c7_url_derivation
    (pre bEnc nEnc b sig url : Str) (decs : List Str) (r : Record)
    (hsig : sig = "public".toList ∨ sig = "signed".toList)
    (hurl : url = pre ++ ("/object/".toList ++ (sig ++ '/' :: (bEnc ++ '/' :: nEnc))))
    (hbid : r.bucket_id = none) (hname : r.name = none) (hfp : r.file_path = none)
    (hfu : r.file_url = some url)
    (hpre : ∀ i, i < pre.length → ("/object/".toList).isPrefixOf (url.drop i) = false)
    (hbne : bEnc ≠ []) (hbs : ∀ c ∈ bEnc, c ≠ '/')
    (hdec : percentDecode bEnc = some b)
    (hb0 : b ≠ []) (hb1 : b ≠ "object".toList) (hb2 : b ≠ sig)
    (hsegs : List.Forall₂ (fun seg d => percentDecode seg = some d) (splitSlash nEnc) decs) :
    deriveBucket [] r = .ok b ∧ deriveObjectName r b = .ok (some (joinSlash decs)) := by
  subst hurl
  -- the suffix after the prefix region
  have hsigSlash : ∀ c ∈ sig, c ≠ '/' := by
    rcases hsig with h | h <;> (subst h; decide)
  have hdecSig : percentDecode sig = some sig := by
    rcases hsig with h | h <;> (subst h; decide)
  -- no match anywhere inside the prefix region
  have hnone : ∀ i, i < pre.length →
      matchObjectBucketAt (((pre ++ ("/object/".toList ++
        (sig ++ '/' :: (bEnc ++ '/' :: nEnc))))).drop i) = none := by
    intro i hi
    cases hmatch : matchObjectBucketAt (((pre ++ ("/object/".toList ++
        (sig ++ '/' :: (bEnc ++ '/' :: nEnc))))).drop i) with
    | none => rfl
    | some cap =>
      exfalso
      have hpref := marker_prefix_of_matchAt _ _ hmatch
      have hfalse := hpre i hi
      rw [← List.isPrefixOf_iff_prefix] at hpref
      unfold objectMarker at hpref
      rw [hfalse] at hpref
      exact Bool.noConfusion hpref
  -- the regex capture on the suffix
  have hmatchAt : matchObjectBucketAt ("/object/".toList ++
      (sig ++ '/' :: (bEnc ++ '/' :: nEnc))) = some bEnc := by
    rcases hsig with h | h
    · subst h
      exact matchObjectBucketAt_public bEnc nEnc hbne hbs
    · subst h
      exact matchObjectBucketAt_signed bEnc nEnc hbne hbs
  have hfind : findObjectBucket (pre ++ ("/object/".toList ++
      (sig ++ '/' :: (bEnc ++ '/' :: nEnc)))) = some bEnc := by
    rw [findObjectBucket_append _ _ hnone]
    exact findObjectBucket_of_matchAt _ _ (by simp) hmatchAt
  have hbucket : deriveBucket [] r = .ok b := by
    unfold deriveBucket
    rw [hbid, hfu]
    simp only [orDefault, List.isEmpty_nil, if_true, hfind, hdec]
  refine ⟨hbucket, ?_⟩
  -- object name derivation
  have hidx : indexOfSub objectMarker (pre ++ ("/object/".toList ++
      (sig ++ '/' :: (bEnc ++ '/' :: nEnc)))) = some pre.length := by
    apply indexOfSub_append objectMarker pre _ (by decide)
    · intro i hi
      have hfalse := hpre i hi
      simpa [objectMarker] using hfalse
    · exact List.isPrefixOf_iff_prefix.mpr ⟨sig ++ '/' :: (bEnc ++ '/' :: nEnc), rfl⟩
  have hdrop : (pre ++ ("/object/".toList ++
      (sig ++ '/' :: (bEnc ++ '/' :: nEnc)))).drop pre.length =
      "/object/".toList ++ (sig ++ '/' :: (bEnc ++ '/' :: nEnc)) :=
    List.drop_left pre _
  have hsplit : splitSlash ("/object/".toList ++ (sig ++ '/' :: (bEnc ++ '/' :: nEnc))) =
      [] :: "object".toList :: sig :: bEnc :: splitSlash nEnc := by
    have h1 : "/object/".toList ++ (sig ++ '/' :: (bEnc ++ '/' :: nEnc)) =
        '/' :: ("object".toList ++ '/' :: (sig ++ '/' :: (bEnc ++ '/' :: nEnc))) := rfl
    rw [h1]
    rw [show splitSlash ('/' :: ("object".toList ++ '/' ::
        (sig ++ '/' :: (bEnc ++ '/' :: nEnc)))) =
      [] :: splitSlash ("object".toList ++ '/' :: (sig ++ '/' :: (bEnc ++ '/' :: nEnc)))
      from by simp [splitSlash]]
    rw [splitSlash_append _ _ (by decide), splitSlash_append _ _ hsigSlash,
      splitSlash_append _ _ hbs]
  have hfdi : findDecodeIdx ([] :: "object".toList :: sig :: bEnc :: splitSlash nEnc) b =
      .ok (some 3) := by
    unfold findDecodeIdx
    rw [findDecodeIdxAux_cons_ne b [] _ 0 [] (by decide) (Ne.symm hb0),
      findDecodeIdxAux_cons_ne b "object".toList _ 1 "object".toList (by decide) (Ne.symm hb1),
      findDecodeIdxAux_cons_ne b sig _ 2 sig hdecSig (Ne.symm hb2),
      findDecodeIdxAux_cons_eq b bEnc _ 3 hdec]
  have hlenpos : 0 < (splitSlash nEnc).length := List.length_pos.mpr (splitSlash_ne_nil nEnc)
  have hname2 : percentDecode nEnc = some (joinSlash decs) := by
    have := percentDecode_joinSlash (splitSlash nEnc) decs hsegs
    rwa [joinSlash_splitSlash] at this
  unfold deriveObjectName
  rw [hname, hfp]
  have hjs : jsOrNull (none : Option Str) none = none := rfl
  simp only [hjs, hfu]
  have hbe : b.isEmpty = false := by simp [List.isEmpty_iff, hb0]
  simp only [hbe, Bool.false_eq_true, if_false, hidx, hdrop, hsplit, hfdi]
  have hlt : 3 + 1 < ([] :: "object".toList :: sig :: bEnc :: splitSlash nEnc).length := by
    simp only [List.length_cons]
    omega
  rw [if_pos hlt]
  have hdrop4 : ([] :: "object".toList :: sig :: bEnc :: splitSlash nEnc).drop (3 + 1) =
      splitSlash nEnc := rfl
  rw [hdrop4, joinSlash_splitSlash, hname2]

theorem c7_witness :
    deriveBucket []
        { bucket_id := none, name := none, file_path := none, object_path := none,
          path := none, file_name := none,
          file_url := some
            "https://x.supabase.co/storage/v1/object/public/my%20bucket/a%2Fb//c%20d.pdf".toList,
          metadata_size := none, size := none } = .ok "my bucket".toList ∧
    deriveObjectName
        { bucket_id := none, name := none, file_path := none, object_path := none,
          path := none, file_name := none,
          file_url := some
            "https://x.supabase.co/storage/v1/object/public/my%20bucket/a%2Fb//c%20d.pdf".toList,
          metadata_size := none, size := none } "my bucket".toList =
      .ok (some "a/b//c d.pdf".toList) := by
  have h := c7_url_derivation
    "https://x.supabase.co/storage/v1".toList "my%20bucket".toList "a%2Fb//c%20d.pdf".toList
    "my bucket".toList "public".toList
    "https://x.supabase.co/storage/v1/object/public/my%20bucket/a%2Fb//c%20d.pdf".toList
    ["a/b".toList, [], "c d.pdf".toList]
    { bucket_id := none, name := none, file_path := none, object_path := none,
      path := none, file_name := none,
      file_url := some
        "https://x.supabase.co/storage/v1/object/public/my%20bucket/a%2Fb//c%20d.pdf".toList,
      metadata_size := none, size := none }
    (Or.inl rfl) rfl rfl rfl rfl rfl
    (by decide) (by decide) (by decide) (by decide) (by decide) (by decide) (by decide)
    (by decide)
  exact h
